import Mathlib

/-!
Shallow embedding of the rivicq-protocol core (TypeScript) in Lean 4:

* `MiMC7` / `MerkleTree`            from crosschain-hub/ui/src/lib/rivicq-oss.ts
* `RivicQCore.verifyTransferProof`  from crosschain-hub/ui/src/lib/rivicq-oss.ts
* `ShieldedPool`                    from the unnamed security-suite source file
* `RelayerService` / `MessageBus`   from the unnamed relayer source file

Conventions of the embedding:

* JavaScript `bigint` and hex strings that denote 256-bit values are both
  modelled as `Nat` (the hex padding round-trips values below `2 ^ 256`
  exactly, and every stored hash is below the MiMC modulus).
* A JavaScript `Map` is modelled as an insertion-ordered association list
  (`mapGet` / `mapSet`), and a JavaScript `Set` as a duplicate-free list
  (`setAdd` plus list membership), which matches `get` / `set` / `has` / `add`.
* Thrown `Error` values are modelled by `Except` with the `PoolError`
  inductive; each constructor corresponds to one source message string.
* Sparse JavaScript arrays (`levelNodes[i]` possibly a hole) are modelled as
  `List (Option Nat)`; a hole reads back as the zero value, as `|| zeroValue`
  does in the source.
-/

namespace RivicQ

/-- Error values thrown by the source, one constructor per message string:
`merkleTreeFull` is the Merkle tree capacity error, `poolIsFull` the
ShieldedPool capacity error, `commitmentNotFound`, `noteAlreadySpent` and
`doubleSpendAttempt` are the three `ShieldedPool.withdraw` errors. -/
inductive PoolError where
  | merkleTreeFull
  | poolIsFull
  | commitmentNotFound
  | noteAlreadySpent
  | doubleSpendAttempt
deriving DecidableEq, Repr

/-- JavaScript `Map.get`: first binding of the key, if any. -/
def mapGet {α β : Type} [DecidableEq α] : List (α × β) → α → Option β
  | [], _ => none
  | (k, v) :: rest, a => if k = a then some v else mapGet rest a

/-- JavaScript `Map.set`: replace the first binding of the key in place,
otherwise append a new binding (insertion order is preserved). -/
def mapSet {α β : Type} [DecidableEq α] : List (α × β) → α → β → List (α × β)
  | [], a, b => [(a, b)]
  | (k, v) :: rest, a, b => if k = a then (a, b) :: rest else (k, v) :: mapSet rest a b

/-- JavaScript `Set.add`: append the element unless it is already present. -/
def setAdd {α : Type} [DecidableEq α] (s : List α) (a : α) : List α :=
  if a ∈ s then s else s ++ [a]

/-- The MiMC7 modulus. The source writes `BigInt(2 ** 256 - 2 ** 32 - 977)`,
but `2 ** 256 - 2 ** 32 - 977` is IEEE-double arithmetic whose result rounds
to exactly `2 ^ 256` before the `BigInt` conversion, so the modulus used at
run time is exactly `2 ^ 256`. -/
def mimcPrime : Nat := 2 ^ 256

/-- Square-and-multiply loop of `MiMC7.modexp`. -/
def modexpGo (result b e m : Nat) : Nat :=
  if e = 0 then result
  else modexpGo (if e % 2 = 1 then result * b % m else result) (b * b % m) (e / 2) m
termination_by e
decreasing_by omega

/-- `MiMC7.modexp(base, exp, mod)` from the source. -/
def modexp (base exp m : Nat) : Nat := modexpGo 1 (base % m) exp m

/-- `MiMC7.xorShift(x, y) = (x ^ y) % prime`. -/
def xorShift (x y : Nat) : Nat := (x ^^^ y) % mimcPrime

/-- `MiMC7.hash(inputs, key, seed)`: 91 rounds over the running state.
`inputs[i % inputs.length] ?? 0n` reads the input cyclically and falls back
to zero on an empty input list. -/
def mimc7hash (inputs : List Nat) (key : Nat) (seed : Nat) : Nat :=
  (List.range 91).foldl
    (fun state i =>
      let s1 := modexp state 5 mimcPrime
      let s2 := s1 ^^^ (inputs.getD (i % inputs.length) 0)
      xorShift s2 key)
    (xorShift key seed)

/-- `MerkleTree` state: `depth`, the ordered `leaves`, and the per-level node
arrays (`nodes.get(level)` in the source, level `0` to `depth`). -/
structure MerkleTree where
  depth : Nat
  leaves : List Nat
  nodes : List (List (Option Nat))
deriving DecidableEq, Repr

/-- Read `levelNodes[i] || zeroValue`: a missing entry is the zero value. -/
def getEntry (l : List (Option Nat)) (i : Nat) : Nat := (l.getD i none).getD 0

/-- Write `levelNodes[i] = v` on a possibly sparse JavaScript array: pad with
holes up to `i` when the array is shorter. -/
def setEntry (l : List (Option Nat)) (i : Nat) (v : Nat) : List (Option Nat) :=
  if i < l.length then l.set i (some v)
  else l ++ List.replicate (i - l.length) none ++ [some v]

/-- One level step of `MerkleTree.updateTree`: the state carries
`(currentIndex, currentHash, nodes)`. At level `0` the leaf is written at
`currentIndex`; at higher levels the sibling is read from the same level
array, the pair is combined with MiMC7 (key `0`), and the result is written
at `currentIndex / 2` of that level array. -/
def updateStep (st : Nat × Nat × List (List (Option Nat))) (level : Nat) :
    Nat × Nat × List (List (Option Nat)) :=
  let ci := st.1
  let ch := st.2.1
  let nodes := st.2.2
  let levelNodes := nodes.getD level []
  if level = 0 then
    (ci / 2, ch, nodes.set level (setEntry levelNodes ci ch))
  else
    let sibIdx := if ci % 2 = 0 then ci + 1 else ci - 1
    let sibling := getEntry levelNodes sibIdx
    let pair := if ci % 2 = 0 then (sibling, ch) else (ch, sibling)
    let ch2 := mimc7hash [pair.1, pair.2] 0 0
    (ci / 2, ch2, nodes.set level (setEntry levelNodes (ci / 2) ch2))

/-- `MerkleTree.updateTree(index, leaf)`: run `updateStep` for levels
`0 .. depth` and return the new node arrays (only `nodes` is mutated). -/
def updateTree (depth : Nat) (nodes : List (List (Option Nat))) (index leaf : Nat) :
    List (List (Option Nat)) :=
  ((List.range (depth + 1)).foldl updateStep (index, leaf, nodes)).2.2

/-- `MerkleTree.insert(leaf)`: fails when `leaves.length >= 2 ** depth`
(before any mutation, so the state is returned unchanged), otherwise appends
the leaf, updates the node arrays, and returns the new leaf index. -/
def MerkleTree.insert (t : MerkleTree) (leaf : Nat) :
    Except PoolError Nat × MerkleTree :=
  let index := t.leaves.length
  if 2 ^ t.depth ≤ index then (Except.error PoolError.merkleTreeFull, t)
  else
    (Except.ok index,
      { t with
        leaves := t.leaves ++ [leaf]
        nodes := updateTree t.depth t.nodes index leaf })

/-- `MerkleTree.getRoot()`: entry `0` of the level-`depth` array, or the zero
value when absent. -/
def getRoot (t : MerkleTree) : Nat := getEntry (t.nodes.getD t.depth []) 0

/-- A freshly constructed `MerkleTree` of the given depth: no leaves, and one
empty node array per level `0 .. depth`. -/
def emptyTree (depth : Nat) : MerkleTree :=
  { depth := depth, leaves := [], nodes := List.replicate (depth + 1) [] }

/-- Insert a list of commitments left to right, collecting each insert result. -/
def insertList (t : MerkleTree) (cs : List Nat) :
    List (Except PoolError Nat) × MerkleTree :=
  match cs with
  | [] => ([], t)
  | c :: rest =>
    let r := t.insert c
    let rs := insertList r.2 rest
    (r.1 :: rs.1, rs.2)

/-- `ZKProofOutput` from rivicq-oss.ts: the opaque proof shape. Field element
strings are modelled as `Nat`. -/
structure ZKProofOutput where
  pi_a : List Nat
  pi_b : List (List Nat)
  pi_c : List Nat
  publicSignals : List Nat
deriving DecidableEq, Repr

/-- `RivicQCore` state: the commitment tree, the spent-nullifier map
(nullifier to block number) and the chain id. -/
structure RivicQCore where
  merkleTree : MerkleTree
  spentNullifiers : List (Nat × Nat)
  chainId : Nat
deriving DecidableEq, Repr

/-- A freshly constructed `RivicQCore` (depth-20 tree, empty spent map). -/
def freshCore (chainId : Nat) : RivicQCore :=
  { merkleTree := emptyTree 20, spentNullifiers := [], chainId := chainId }

/-- `RivicQCore.verifyTransferProof(proof, nullifier, blockNumber)` from the
source, verbatim: if the nullifier is already in `spentNullifiers` return
`false`; otherwise FIRST record the nullifier as spent and THEN return the
proof check `proof.pi_a.length > 0`. -/
def RivicQCore.verifyTransferProof (s : RivicQCore) (proof : ZKProofOutput)
    (nullifier blockNumber : Nat) : Bool × RivicQCore :=
  if (mapGet s.spentNullifiers nullifier).isSome then (false, s)
  else
    (decide (0 < proof.pi_a.length),
      { s with spentNullifiers := mapSet s.spentNullifiers nullifier blockNumber })

/-- `ShieldedNote` from the security-suite source. `commitment` and
`nullifier` are hex strings built by `ShieldedPool.hash`, modelled as the
list of 256-bit blocks that the source concatenates (see `poolHash`). -/
structure ShieldedNote where
  commitment : List Nat
  nullifier : List Nat
  amount : Nat
  salt : Nat
  createdAt : Nat
  spent : Bool
  leafIndex : Nat
deriving DecidableEq, Repr

/-- `ShieldedPool.hash(data)` concatenates the 64-hex-digit expansions of the
data values into one string. For values below `2 ^ 256` this concatenation is
injective and equality of the resulting strings coincides with equality of
the block lists, so the hash string is modelled by the list itself. -/
def poolHash (data : List Nat) : List Nat := data

/-- `ShieldedPool` state: the notes map keyed by commitment, the nullifier
set, the ordered commitment list, and the capacity. -/
structure ShieldedPool where
  notes : List (List Nat × ShieldedNote)
  nullifierSet : List (List Nat)
  commitmentTree : List (List Nat)
  poolSize : Nat
deriving DecidableEq, Repr

/-- A freshly constructed `ShieldedPool` of the given capacity. -/
def freshPool (poolSize : Nat) : ShieldedPool :=
  { notes := [], nullifierSet := [], commitmentTree := [], poolSize := poolSize }

/-- `ShieldedPool.deposit(amount, secret, salt)`. `Date.now()` is passed in
explicitly as `now`. Fails with the pool-full error before any mutation. -/
def ShieldedPool.deposit (p : ShieldedPool) (amount secret salt now : Nat) :
    Except PoolError (List Nat × List Nat × Nat) × ShieldedPool :=
  if p.poolSize ≤ p.commitmentTree.length then (Except.error PoolError.poolIsFull, p)
  else
    let nullifier := poolHash [secret, salt]
    let commitment := poolHash [amount, secret, salt]
    let note : ShieldedNote :=
      { commitment := commitment, nullifier := nullifier, amount := amount,
        salt := salt, createdAt := now, spent := false,
        leafIndex := p.commitmentTree.length }
    (Except.ok (commitment, nullifier, note.leafIndex),
      { p with
        notes := mapSet p.notes commitment note
        commitmentTree := p.commitmentTree ++ [commitment] })

/-- `ShieldedPool.withdraw(commitment, recipient, proof, relayer, fee)` from
the source, verbatim: look the note up by commitment; fail if missing, if the
note is spent, or if its nullifier is already in the set — each failure
happens before any mutation; otherwise mark the note spent, add the
nullifier to the set, and return `{success: true, nullifier}`. The `proof`,
`recipient`, `relayer` and `fee` arguments are never read. -/
def ShieldedPool.withdraw (p : ShieldedPool) (commitment : List Nat)
    (recipient : Nat) (proof : ZKProofOutput) (relayer : Nat) (fee : Nat) :
    Except PoolError (Bool × List Nat) × ShieldedPool :=
  match mapGet p.notes commitment with
  | none => (Except.error PoolError.commitmentNotFound, p)
  | some note =>
    if note.spent then (Except.error PoolError.noteAlreadySpent, p)
    else if note.nullifier ∈ p.nullifierSet then
      (Except.error PoolError.doubleSpendAttempt, p)
    else
      (Except.ok (true, note.nullifier),
        { p with
          notes := mapSet p.notes commitment { note with spent := true }
          nullifierSet := setAdd p.nullifierSet note.nullifier })

/-- `CrossChainMessage` from the relayer source. Addresses, hashes and token
ids are modelled as `Nat`; the zero address is `0`. -/
structure CrossChainMessage where
  transferId : Nat
  sender : Nat
  recipient : Nat
  amount : Nat
  sourceChainId : Nat
  destinationChainId : Nat
  token : Nat
  timestamp : Nat
  nonce : Nat
deriving DecidableEq, Repr

/-- `RelayConfirmation` from the relayer source. -/
structure RelayConfirmation where
  transferId : Nat
  transactionHash : Nat
  blockNumber : Nat
  timestamp : Nat
  signatures : List Nat
  signers : List Nat
deriving DecidableEq, Repr

/-- `RelayerService.processConfirmedTransfer(transferId, confirmations)`:
the message handed to `relayMessage` is built from scratch — sender,
recipient, token are the zero address, amount and nonce are `0`, and both
chain ids are the FIRST confirmation's `blockNumber`. The original queued
message for the transfer is never consulted (it is not even an input).
`confirmations[0]` on an empty list would crash in the source; the empty
case is modelled as `none`. -/
def processConfirmedTransfer (tid : Nat) (confs : List RelayConfirmation) :
    Option CrossChainMessage :=
  confs.head?.map fun firstConf =>
    { transferId := tid
      sender := 0
      recipient := 0
      amount := 0
      sourceChainId := firstConf.blockNumber
      destinationChainId := firstConf.blockNumber
      token := 0
      timestamp := firstConf.timestamp
      nonce := 0 }

/-- Relay coordinator state. `confirmations` is the `Map<string,
RelayConfirmation[]>` of the source; `requiredSignatures` is hardcoded to
`2` there; `dispatched` instruments the model: it logs, in order, every
message passed to `relayMessage` by the confirmation monitor (each
successful adapter dispatch). -/
structure RelayerService where
  confirmations : List (Nat × List RelayConfirmation)
  requiredSignatures : Nat
  dispatched : List CrossChainMessage
deriving DecidableEq, Repr

/-- The freshly started relayer: no confirmations, threshold 2, no
dispatches. -/
def initRelayer : RelayerService :=
  { confirmations := [], requiredSignatures := 2, dispatched := [] }

/-- `RelayerService.addConfirmation(confirmation)`: push onto the existing
array for the transfer id (or a new array) — no signer-set validation, no
deduplication by signer. -/
def RelayerService.addConfirmation (s : RelayerService) (conf : RelayConfirmation) :
    RelayerService :=
  let existing := (mapGet s.confirmations conf.transferId).getD []
  { s with confirmations := mapSet s.confirmations conf.transferId (existing ++ [conf]) }

/-- One pass of the `monitorConfirmations` loop body over the entries, in
map order: every entry whose confirmation count reaches `req` is dispatched
via `processConfirmedTransfer` and deleted from the map; the others are
kept. Returns the surviving entries and the dispatched messages. -/
def monitorEntries (req : Nat) :
    List (Nat × List RelayConfirmation) →
    List (Nat × List RelayConfirmation) × List CrossChainMessage
  | [] => ([], [])
  | (tid, confs) :: rest =>
    let r := monitorEntries req rest
    if req ≤ confs.length then
      match processConfirmedTransfer tid confs with
      | some m => (r.1, m :: r.2)
      | none => ((tid, confs) :: r.1, r.2)
    else ((tid, confs) :: r.1, r.2)

/-- One iteration of `monitorConfirmations` applied to the relayer state
(dispatch every entry at or above threshold, delete it, log the dispatch). -/
def RelayerService.monitorPass (s : RelayerService) : RelayerService :=
  let r := monitorEntries s.requiredSignatures s.confirmations
  { s with confirmations := r.1, dispatched := s.dispatched ++ r.2 }

/-- External events driving the relayer: a submitted confirmation, or one
pass of the confirmation-monitor loop. -/
inductive RelayEvent where
  | addConf (c : RelayConfirmation)
  | monitorPass
deriving DecidableEq, Repr

/-- Run a sequence of events against a starting relayer state. -/
def runFrom (s : RelayerService) : List RelayEvent → RelayerService
  | [] => s
  | RelayEvent.addConf c :: rest => runFrom (s.addConfirmation c) rest
  | RelayEvent.monitorPass :: rest => runFrom s.monitorPass rest

/-- Run a sequence of events from the freshly started relayer. -/
def runEvents (evts : List RelayEvent) : RelayerService := runFrom initRelayer evts

/-- Number of logged dispatches whose message carries the given transfer id. -/
def dispatchCount (tid : Nat) : List CrossChainMessage → Nat
  | [] => 0
  | m :: rest => (if m.transferId = tid then 1 else 0) + dispatchCount tid rest

/-- Total number of stored confirmations for the given transfer id across
the confirmation map entries. -/
def sumConfs (tid : Nat) : List (Nat × List RelayConfirmation) → Nat
  | [] => 0
  | (k, l) :: rest => (if k = tid then l.length else 0) + sumConfs tid rest

/-- Number of `addConf` events for the given transfer id. -/
def addCount (tid : Nat) : List RelayEvent → Nat
  | [] => 0
  | RelayEvent.addConf c :: rest => (if c.transferId = tid then 1 else 0) + addCount tid rest
  | RelayEvent.monitorPass :: rest => addCount tid rest

/-- `RelayerService.processMessageQueue`, fuel-indexed: `shift` a message,
attempt dispatch, and on failure `push` it back onto the end of the queue;
loop while the queue is nonempty. `some ()` means the loop exited (empty
queue); `none` means the given number of iterations was not enough. The
dispatch outcome is supplied by `dispatchOk` (a thrown `relayMessage` error
is `false`). -/
def processMessageQueue (dispatchOk : CrossChainMessage → Bool) :
    Nat → List CrossChainMessage → Option Unit
  | 0, q => if q.isEmpty then some () else none
  | _ + 1, [] => some ()
  | fuel + 1, m :: rest =>
    if dispatchOk m then processMessageQueue dispatchOk fuel rest
    else processMessageQueue dispatchOk fuel (rest ++ [m])

/-- The canonical content digest of `MessageBus.publishMessage`:
`keccak256(solidityPackedEncode(all nine fields, in declaration order))`.
The packed encoding is injective on the nine fields, and keccak256 is
collision-free for the purposes of this model, so the digest is modelled by
the canonical field tuple itself (as a list). -/
def messageDigest (m : CrossChainMessage) : List Nat :=
  [m.transferId, m.sender, m.recipient, m.amount, m.sourceChainId,
   m.destinationChainId, m.token, m.timestamp, m.nonce]

/-- `MessageBus` state: the content-addressed message store. -/
structure MessageBus where
  messageHashes : List (List Nat × CrossChainMessage)
deriving DecidableEq, Repr

/-- `MessageBus.publishMessage(message)`: store the message under its
digest and return the digest. -/
def MessageBus.publishMessage (b : MessageBus) (m : CrossChainMessage) :
    List Nat × MessageBus :=
  (messageDigest m, { messageHashes := mapSet b.messageHashes (messageDigest m) m })

/-- `MessageBus.getMessage(hash)`. -/
def MessageBus.getMessage (b : MessageBus) (h : List Nat) : Option CrossChainMessage :=
  mapGet b.messageHashes h

/-- `MessageBus.verifyMessage(hash, message)` from the source, verbatim: look
the stored message up by hash and compare ONLY `transferId`, `sender`,
`recipient` and `amount`; the digest is not recomputed and the remaining
five fields are not compared. -/
def MessageBus.verifyMessage (b : MessageBus) (h : List Nat) (m : CrossChainMessage) :
    Bool :=
  match b.getMessage h with
  | none => false
  | some stored =>
    stored.transferId = m.transferId ∧ stored.sender = m.sender ∧
      stored.recipient = m.recipient ∧ stored.amount = m.amount

/-! Helper lemmas shared by the claim theorems. -/

theorem insert_leaves_of_lt {t : MerkleTree} {c : Nat}
    (h : t.leaves.length < 2 ^ t.depth) :
    (t.insert c).1 = Except.ok t.leaves.length ∧
    (t.insert c).2.leaves = t.leaves ++ [c] ∧
    (t.insert c).2.depth = t.depth := by
  unfold MerkleTree.insert
  have hlt : ¬ (2 ^ t.depth ≤ t.leaves.length) := by omega
  simp [hlt]

theorem insert_full {t : MerkleTree} {c : Nat}
    (h : 2 ^ t.depth ≤ t.leaves.length) :
    t.insert c = (Except.error PoolError.merkleTreeFull, t) := by
  unfold MerkleTree.insert
  simp [h]

theorem insertList_spec :
    ∀ (cs : List Nat) (t : MerkleTree),
      t.leaves.length + cs.length ≤ 2 ^ t.depth →
      (insertList t cs).1 = (List.range' t.leaves.length cs.length).map Except.ok ∧
      (insertList t cs).2.leaves = t.leaves ++ cs ∧
      (insertList t cs).2.depth = t.depth := by
  intro cs
  induction cs with
  | nil => intro t _; simp [insertList]
  | cons c rest ih =>
    intro t h
    have hlt : t.leaves.length < 2 ^ t.depth := by
      simp only [List.length_cons] at h; omega
    obtain ⟨h1, h2, h3⟩ := insert_leaves_of_lt (c := c) hlt
    have hrec := ih (t.insert c).2 (by
      rw [h2, h3]
      simp only [List.length_append, List.length_singleton]
      simp only [List.length_cons] at h
      omega)
    obtain ⟨r1, r2, r3⟩ := hrec
    refine ⟨?_, ?_, ?_⟩
    · simp only [insertList, r1, h1, h2]
      simp [List.range'_succ, List.length_append]
    · simp only [insertList, r2, h2]
      simp
    · simp only [insertList, r3, h3]

theorem mem_setAdd_self {α : Type} [DecidableEq α] (s : List α) (a : α) :
    a ∈ setAdd s a := by
  unfold setAdd
  split
  · assumption
  · simp

theorem withdraw_success_spec {p : ShieldedPool} {c : List Nat}
    {note : ShieldedNote} (r : Nat) (proof : ZKProofOutput) (rel fee : Nat)
    (hget : mapGet p.notes c = some note) (hspent : note.spent = false)
    (hmem : note.nullifier ∉ p.nullifierSet) :
    (p.withdraw c r proof rel fee).1 = Except.ok (true, note.nullifier) ∧
    note.nullifier ∈ (p.withdraw c r proof rel fee).2.nullifierSet := by
  unfold ShieldedPool.withdraw
  rw [hget]
  simp [hspent, hmem, mem_setAdd_self]

theorem withdraw_consumed_fails {p : ShieldedPool} {c : List Nat}
    {note : ShieldedNote} (r : Nat) (proof : ZKProofOutput) (rel fee : Nat)
    (hget : mapGet p.notes c = some note)
    (hmem : note.nullifier ∈ p.nullifierSet) :
    (∃ e, (p.withdraw c r proof rel fee).1 = Except.error e) ∧
    (p.withdraw c r proof rel fee).2 = p := by
  unfold ShieldedPool.withdraw
  rw [hget]
  by_cases hspent : note.spent
  · simp [hspent]
  · simp only [hspent, if_false, hmem, if_true]
    exact ⟨⟨PoolError.doubleSpendAttempt, rfl⟩, rfl⟩

theorem verify_spent_noop {s : RivicQCore} (proof : ZKProofOutput) {n : Nat}
    (bn : Nat) (h : (mapGet s.spentNullifiers n).isSome = true) :
    s.verifyTransferProof proof n bn = (false, s) := by
  unfold RivicQCore.verifyTransferProof
  simp [h]

theorem sumConfs_addConf (tid : Nat) (c : RelayConfirmation) (k : Nat) :
    ∀ (m : List (Nat × List RelayConfirmation)),
      sumConfs tid (mapSet m k ((mapGet m k).getD [] ++ [c])) =
        sumConfs tid m + (if k = tid then 1 else 0) := by
  intro m
  induction m with
  | nil =>
    simp [mapGet, mapSet, sumConfs]
  | cons kv rest ih =>
    obtain ⟨k1, l1⟩ := kv
    by_cases hk : k1 = k
    · subst hk
      simp only [mapGet, if_pos rfl, mapSet, Option.getD_some, sumConfs,
        List.length_append, List.length_singleton]
      by_cases ht : k1 = tid <;> simp [ht] <;> omega
    · simp only [mapGet, if_neg hk, mapSet, sumConfs, ih]
      omega

theorem dispatchCount_append (tid : Nat) (a b : List CrossChainMessage) :
    dispatchCount tid (a ++ b) = dispatchCount tid a + dispatchCount tid b := by
  induction a with
  | nil => simp [dispatchCount]
  | cons m rest ih => simp [dispatchCount, ih]; omega

theorem monitorEntries_bound (tid req : Nat) (hreq : 2 ≤ req) :
    ∀ entries,
      2 * dispatchCount tid (monitorEntries req entries).2 +
        sumConfs tid (monitorEntries req entries).1 ≤ sumConfs tid entries := by
  intro entries
  induction entries with
  | nil => simp [monitorEntries, sumConfs, dispatchCount]
  | cons kv rest ih =>
    obtain ⟨k, l⟩ := kv
    by_cases hlen : req ≤ l.length
    · cases l with
      | nil => simp at hlen; omega
      | cons c0 l1 =>
        have hlen1 : req ≤ l1.length + 1 := by simpa using hlen
        have hp : processConfirmedTransfer k (c0 :: l1) = some
            { transferId := k, sender := 0, recipient := 0, amount := 0,
              sourceChainId := c0.blockNumber, destinationChainId := c0.blockNumber,
              token := 0, timestamp := c0.timestamp, nonce := 0 } := rfl
        by_cases ht : k = tid
        · subst ht
          simp [monitorEntries, hlen1, hp, sumConfs, dispatchCount]
          omega
        · simp [monitorEntries, hlen1, hp, sumConfs, dispatchCount, ht]
          omega
    · simp only [monitorEntries, if_neg hlen, sumConfs]
      omega

theorem runFrom_dispatch_bound (tid : Nat) :
    ∀ (evts : List RelayEvent) (s : RelayerService),
      s.requiredSignatures = 2 →
      2 * dispatchCount tid (runFrom s evts).dispatched +
          sumConfs tid (runFrom s evts).confirmations ≤
        2 * dispatchCount tid s.dispatched + sumConfs tid s.confirmations +
          addCount tid evts := by
  intro evts
  induction evts with
  | nil => intro s _; simp [runFrom, addCount]
  | cons e rest ih =>
    intro s hs
    cases e with
    | addConf c =>
      have hreq : (s.addConfirmation c).requiredSignatures = 2 := hs
      have h := ih (s.addConfirmation c) hreq
      have hsum : sumConfs tid (s.addConfirmation c).confirmations =
          sumConfs tid s.confirmations + (if c.transferId = tid then 1 else 0) :=
        sumConfs_addConf tid c c.transferId s.confirmations
      have hdisp : (s.addConfirmation c).dispatched = s.dispatched := rfl
      simp only [runFrom, addCount] at h ⊢
      rw [hsum, hdisp] at h
      omega
    | monitorPass =>
      have hreq : s.monitorPass.requiredSignatures = 2 := hs
      have h := ih s.monitorPass hreq
      have hb := monitorEntries_bound tid s.requiredSignatures (by omega)
        s.confirmations
      have hdisp : s.monitorPass.dispatched =
          s.dispatched ++ (monitorEntries s.requiredSignatures s.confirmations).2 := rfl
      have hconf : s.monitorPass.confirmations =
          (monitorEntries s.requiredSignatures s.confirmations).1 := rfl
      simp only [runFrom, addCount] at h ⊢
      rw [hdisp, dispatchCount_append, hconf] at h
      omega

/-! Claim theorems. -/

/-- Claim C1, counterexample: the dispatch is NOT at-most-once per
transferId. Two confirmations for transfer 7 reach the threshold and are
dispatched; re-submitting the same two confirmations after the dispatch
(the entry was deleted, and no Relayed marker exists) makes a second
monitor pass dispatch transfer 7 again: the dispatch count is 2. -/
theorem c1_counterexample :
    dispatchCount 7 (runEvents
      [RelayEvent.addConf (RelayConfirmation.mk 7 100 11 12 [1] [1]),
       RelayEvent.addConf (RelayConfirmation.mk 7 101 13 14 [2] [2]),
       RelayEvent.monitorPass,
       RelayEvent.addConf (RelayConfirmation.mk 7 100 11 12 [1] [1]),
       RelayEvent.addConf (RelayConfirmation.mk 7 101 13 14 [2] [2]),
       RelayEvent.monitorPass]).dispatched = 2 := by decide

/-- Claim C1, amended: every successful dispatch consumes at least
`requiredSignatures = 2` stored confirmations for its transferId (the map
entry is deleted after dispatch), so across any event sequence twice the
number of dispatches for a transferId never exceeds the number of
addConfirmation calls for it; without re-submitted confirmations a transfer
is dispatched at most once, but re-submission does trigger a new dispatch. -/
theorem c1_dispatch_bound :
    ∀ (evts : List RelayEvent) (tid : Nat),
      2 * dispatchCount tid (runEvents evts).dispatched ≤ addCount tid evts := by
  intro evts tid
  have h := runFrom_dispatch_bound tid evts initRelayer rfl
  have h0 : dispatchCount tid initRelayer.dispatched = 0 := rfl
  have h1 : sumConfs tid initRelayer.confirmations = 0 := rfl
  rw [h0, h1] at h
  unfold runEvents
  omega

/-- Claim C2 (code bug, evaluated at the failing input): with a fresh core
and an invalid proof (empty `pi_a`), `verifyTransferProof` reports failure
(`false`) yet records the previously unseen nullifier 5 as spent —
nullifier consumption happens BEFORE proof verification, so an invalid
proof burns the nullifier. -/
theorem c2_invalid_proof_consumes_nullifier :
    mapGet (freshCore 1).spentNullifiers 5 = none ∧
    ((freshCore 1).verifyTransferProof (ZKProofOutput.mk [] [] [] []) 5 10).1 = false ∧
    mapGet ((freshCore 1).verifyTransferProof
        (ZKProofOutput.mk [] [] [] []) 5 10).2.spentNullifiers 5 = some 10 := by
  decide

/-- Claim C3, counterexample: the first call presenting a fresh nullifier
need not succeed. With an invalid proof (empty `pi_a`), the first
`verifyTransferProof` call presenting nullifier 7 returns `false` and still
consumes it (records it as spent). -/
theorem c3_counterexample :
    mapGet (freshCore 2).spentNullifiers 7 = none ∧
    ((freshCore 2).verifyTransferProof (ZKProofOutput.mk [] [] [] []) 7 3).1 = false ∧
    mapGet ((freshCore 2).verifyTransferProof
        (ZKProofOutput.mk [] [] [] []) 7 3).2.spentNullifiers 7 = some 3 := by
  decide

/-- Claim C3, amended: a nullifier is consumed at most once. In
`ShieldedPool.withdraw` the first consuming call (note present, unspent,
nullifier fresh) completes the withdrawal and records the nullifier, and
every later call presenting the same nullifier fails with an error and
leaves the whole pool state unchanged. In `verifyTransferProof` every call
presenting an already-consumed nullifier returns `false` and leaves the
state unchanged; only the success of the FIRST consuming call depends on
proof validity (see the counterexample). -/
theorem c3_nullifier_single_consumption :
    (∀ (p : ShieldedPool) (c : List Nat) (note : ShieldedNote) (r : Nat)
        (proof : ZKProofOutput) (rel fee : Nat),
        mapGet p.notes c = some note → note.spent = false →
        note.nullifier ∉ p.nullifierSet →
        (p.withdraw c r proof rel fee).1 = Except.ok (true, note.nullifier) ∧
        note.nullifier ∈ (p.withdraw c r proof rel fee).2.nullifierSet) ∧
    (∀ (p : ShieldedPool) (c : List Nat) (note : ShieldedNote) (r : Nat)
        (proof : ZKProofOutput) (rel fee : Nat),
        mapGet p.notes c = some note → note.nullifier ∈ p.nullifierSet →
        (∃ e, (p.withdraw c r proof rel fee).1 = Except.error e) ∧
        (p.withdraw c r proof rel fee).2 = p) ∧
    (∀ (s : RivicQCore) (proof : ZKProofOutput) (n bn : Nat),
        (mapGet s.spentNullifiers n).isSome = true →
        s.verifyTransferProof proof n bn = (false, s)) := by
  refine ⟨?_, ?_, ?_⟩
  · intro p c note r proof rel fee hget hspent hmem
    exact withdraw_success_spec r proof rel fee hget hspent hmem
  · intro p c note r proof rel fee hget hmem
    exact withdraw_consumed_fails r proof rel fee hget hmem
  · intro s proof n bn h
    exact verify_spent_noop proof bn h

/-- Claim C3 witness: concrete instances of the three parts — a first
withdrawal of an unspent note succeeds; a withdrawal whose nullifier is
already in the set leaves the pool unchanged; a second
`verifyTransferProof` on a spent nullifier is a no-op returning `false`. -/
theorem c3_nullifier_single_consumption_witness :
    ((ShieldedPool.mk [([3, 4, 5], ShieldedNote.mk [3, 4, 5] [4, 5] 3 5 0 false 0)]
        [] [[3, 4, 5]] 8).withdraw [3, 4, 5] 0 (ZKProofOutput.mk [] [] [] []) 0 0).1 =
      Except.ok (true, [4, 5]) ∧
    ((ShieldedPool.mk [([3, 4, 5], ShieldedNote.mk [3, 4, 5] [4, 5] 3 5 0 false 0)]
        [[4, 5]] [[3, 4, 5]] 8).withdraw [3, 4, 5] 0
        (ZKProofOutput.mk [] [] [] []) 0 0).2 =
      ShieldedPool.mk [([3, 4, 5], ShieldedNote.mk [3, 4, 5] [4, 5] 3 5 0 false 0)]
        [[4, 5]] [[3, 4, 5]] 8 ∧
    (RivicQCore.mk (emptyTree 20) [(7, 1)] 1).verifyTransferProof
        (ZKProofOutput.mk [] [] [] []) 7 3 =
      (false, RivicQCore.mk (emptyTree 20) [(7, 1)] 1) := by
  refine ⟨?_, ?_, ?_⟩
  · exact (c3_nullifier_single_consumption.1
      (ShieldedPool.mk [([3, 4, 5], ShieldedNote.mk [3, 4, 5] [4, 5] 3 5 0 false 0)]
        [] [[3, 4, 5]] 8) [3, 4, 5]
      (ShieldedNote.mk [3, 4, 5] [4, 5] 3 5 0 false 0) 0
      (ZKProofOutput.mk [] [] [] []) 0 0 rfl rfl (by decide)).1
  · exact (c3_nullifier_single_consumption.2.1
      (ShieldedPool.mk [([3, 4, 5], ShieldedNote.mk [3, 4, 5] [4, 5] 3 5 0 false 0)]
        [[4, 5]] [[3, 4, 5]] 8) [3, 4, 5]
      (ShieldedNote.mk [3, 4, 5] [4, 5] 3 5 0 false 0) 0
      (ZKProofOutput.mk [] [] [] []) 0 0 rfl (by decide)).2
  · exact c3_nullifier_single_consumption.2.2
      (RivicQCore.mk (emptyTree 20) [(7, 1)] 1) (ZKProofOutput.mk [] [] [] []) 7 3
      (by decide)

/-- Claim C4, counterexample: two confirmations from the SAME signer (id 5)
for transfer 9 reach the threshold of 2 and the transfer is dispatched —
the duplicate is counted, no deduplication by signer and no signer-set
validation happens, where the claim requires the transfer to stay pending
with only one distinct signer. -/
theorem c4_counterexample :
    dispatchCount 9 (runEvents
      [RelayEvent.addConf (RelayConfirmation.mk 9 200 21 22 [5] [5]),
       RelayEvent.addConf (RelayConfirmation.mk 9 200 21 22 [5] [5]),
       RelayEvent.monitorPass]).dispatched = 1 := by decide

/-- Claim C4, amended: a transfer is processed for dispatch if and only if
the RAW count of stored confirmation records for it reaches the threshold:
`addConfirmation` appends every record (+1 to the stored count even for a
duplicate signer, with no signer-set validation), and a monitor pass
dispatches a transfer exactly when its record count is at least the
threshold of 2 — so threshold-minus-one records leave it pending and
threshold records trigger dispatch, duplicates included. -/
theorem c4_threshold_raw_count :
    (∀ (s : RelayerService) (c : RelayConfirmation),
        sumConfs c.transferId (s.addConfirmation c).confirmations =
          sumConfs c.transferId s.confirmations + 1) ∧
    (∀ (s : RelayerService) (tid : Nat) (confs : List RelayConfirmation),
        s.confirmations = [(tid, confs)] → s.dispatched = [] →
        s.requiredSignatures = 2 →
        (s.monitorPass.dispatched ≠ [] ↔ 2 ≤ confs.length)) := by
  constructor
  · intro s c
    simpa using sumConfs_addConf c.transferId c c.transferId s.confirmations
  · intro s tid confs h1 h2 h3
    have key : s.monitorPass.dispatched =
        s.dispatched ++ (monitorEntries s.requiredSignatures s.confirmations).2 := rfl
    rw [key, h1, h2, h3, List.nil_append]
    by_cases hlen : 2 ≤ confs.length
    · cases confs with
      | nil => simp at hlen
      | cons c0 l1 =>
        have hlen1 : (2 : Nat) ≤ l1.length + 1 := by simpa using hlen
        have hp : processConfirmedTransfer tid (c0 :: l1) = some
            { transferId := tid, sender := 0, recipient := 0, amount := 0,
              sourceChainId := c0.blockNumber, destinationChainId := c0.blockNumber,
              token := 0, timestamp := c0.timestamp, nonce := 0 } := rfl
        simp [monitorEntries, hlen1, hp, hlen]
    · simp [monitorEntries, hlen]

/-- Claim C4 witness: adding a duplicate-signer confirmation still bumps
the stored count from 0 to 1, and a singleton entry holding exactly two
records (both from signer 5) is dispatched by a monitor pass. -/
theorem c4_threshold_raw_count_witness :
    sumConfs 9 ((initRelayer.addConfirmation
        (RelayConfirmation.mk 9 200 21 22 [5] [5])).confirmations) =
      sumConfs 9 initRelayer.confirmations + 1 ∧
    ((RelayerService.mk
        [(9, [RelayConfirmation.mk 9 200 21 22 [5] [5],
              RelayConfirmation.mk 9 200 21 22 [5] [5]])] 2 []).monitorPass.dispatched ≠ [] ↔
      2 ≤ ([RelayConfirmation.mk 9 200 21 22 [5] [5],
            RelayConfirmation.mk 9 200 21 22 [5] [5]] : List RelayConfirmation).length) := by
  exact ⟨c4_threshold_raw_count.1 initRelayer (RelayConfirmation.mk 9 200 21 22 [5] [5]),
    c4_threshold_raw_count.2
      (RelayerService.mk [(9, [RelayConfirmation.mk 9 200 21 22 [5] [5],
        RelayConfirmation.mk 9 200 21 22 [5] [5]])] 2 []) 9 _ rfl rfl rfl⟩

/-- Claim C5: for a depth-d tree, every insert below capacity succeeds and
returns the next leaf index; a full sequence of 2 ^ d inserts from a fresh
tree yields exactly the indices 0 .. 2 ^ d - 1; and the following insert
fails with the tree-full error while returning the state — and hence the
leaf sequence and the root — unchanged. -/
theorem c5_tree_capacity :
    (∀ (t : MerkleTree) (c : Nat), t.leaves.length < 2 ^ t.depth →
        (t.insert c).1 = Except.ok t.leaves.length) ∧
    (∀ (d : Nat) (cs : List Nat), cs.length = 2 ^ d →
        (insertList (emptyTree d) cs).1 = (List.range (2 ^ d)).map Except.ok) ∧
    (∀ (d : Nat) (cs : List Nat) (c : Nat), cs.length = 2 ^ d →
        (insertList (emptyTree d) cs).2.insert c =
          (Except.error PoolError.merkleTreeFull, (insertList (emptyTree d) cs).2) ∧
        getRoot ((insertList (emptyTree d) cs).2.insert c).2 =
          getRoot (insertList (emptyTree d) cs).2) := by
  refine ⟨?_, ?_, ?_⟩
  · intro t c h
    exact (insert_leaves_of_lt h).1
  · intro d cs hcs
    have h := (insertList_spec cs (emptyTree d) (by simp [emptyTree, hcs])).1
    have hlen0 : (emptyTree d).leaves.length = 0 := rfl
    rw [hlen0, hcs] at h
    rw [h, List.range_eq_range']
  · intro d cs c hcs
    obtain ⟨_, h2, h3⟩ := insertList_spec cs (emptyTree d) (by simp [emptyTree, hcs])
    have hfull : 2 ^ (insertList (emptyTree d) cs).2.depth ≤
        (insertList (emptyTree d) cs).2.leaves.length := by
      rw [h2, h3]
      simp [emptyTree, hcs]
    have heq := insert_full (c := c) hfull
    refine ⟨heq, ?_⟩
    rw [heq]

/-- Claim C5 witness: a depth-3 tree accepts exactly 2 ^ 3 = 8 commitments
with indices 0 .. 7, and the 9th insert fails with the tree-full error. -/
theorem c5_tree_capacity_witness :
    (insertList (emptyTree 3) [1, 2, 3, 4, 5, 6, 7, 8]).1 =
      (List.range (2 ^ 3)).map Except.ok ∧
    ((insertList (emptyTree 3) [1, 2, 3, 4, 5, 6, 7, 8]).2.insert 9).1 =
      Except.error PoolError.merkleTreeFull := by
  refine ⟨c5_tree_capacity.2.1 3 [1, 2, 3, 4, 5, 6, 7, 8] (by decide), ?_⟩
  rw [(c5_tree_capacity.2.2 3 [1, 2, 3, 4, 5, 6, 7, 8] 9 (by decide)).1]

/-- Claim C6, counterexample: publish a message, then verify the returned
hash against a message that differs ONLY in the token field — the source
returns `true` although the digest of the tampered message differs from the
stored hash, because only transferId, sender, recipient and amount are
compared and the digest is never recomputed. -/
theorem c6_counterexample :
    ((MessageBus.mk []).publishMessage (CrossChainMessage.mk 1 2 3 4 5 6 7 8 9)).2.verifyMessage
        ((MessageBus.mk []).publishMessage (CrossChainMessage.mk 1 2 3 4 5 6 7 8 9)).1
        (CrossChainMessage.mk 1 2 3 4 5 6 99 8 9) = true ∧
    messageDigest (CrossChainMessage.mk 1 2 3 4 5 6 99 8 9) ≠
      ((MessageBus.mk []).publishMessage (CrossChainMessage.mk 1 2 3 4 5 6 7 8 9)).1 := by
  decide

/-- Claim C6, amended: `verifyMessage(hash, m)` returns `true` if and only
if some message is stored under `hash` and `m` agrees with the stored
message on exactly the four compared fields — transferId, sender, recipient
and amount. Differences in token, chain ids, timestamp or nonce are not
detected, and the digest is not recomputed. -/
theorem c6_verify_four_fields :
    ∀ (b : MessageBus) (h : List Nat) (m : CrossChainMessage),
      b.verifyMessage h m = true ↔
        ∃ stored, b.getMessage h = some stored ∧
          stored.transferId = m.transferId ∧ stored.sender = m.sender ∧
          stored.recipient = m.recipient ∧ stored.amount = m.amount := by
  intro b h m
  unfold MessageBus.verifyMessage
  cases hg : b.getMessage h with
  | none => simp [hg]
  | some stored => simp [hg]

/-- Claim C7: the root of the commitment tree is a deterministic pure
function of the inserted leaf sequence — two fresh trees of the same depth
receiving the same commitments in the same order have equal roots (the
embedding is a pure function of the event sequence, so the two-run
statement is a congruence), and the tree state after building records
exactly that leaf sequence, on which the root depends. -/
theorem c7_root_deterministic :
    (∀ (d : Nat) (cs : List Nat) (t1 t2 : MerkleTree),
        t1 = emptyTree d → t2 = emptyTree d →
        getRoot (insertList t1 cs).2 = getRoot (insertList t2 cs).2) ∧
    (∀ (d : Nat) (cs : List Nat), cs.length ≤ 2 ^ d →
        (insertList (emptyTree d) cs).2.leaves = cs) := by
  constructor
  · intro d cs t1 t2 h1 h2
    rw [h1, h2]
  · intro d cs hlen
    have h := (insertList_spec cs (emptyTree d) (by simp [emptyTree, hlen])).2.1
    simpa [emptyTree] using h

/-- Claim C7 witness: both parts at depth 2 with the two-leaf sequence
`[5, 6]` on two fresh trees. -/
theorem c7_root_deterministic_witness :
    getRoot (insertList (emptyTree 2) [5, 6]).2 =
      getRoot (insertList (emptyTree 2) [5, 6]).2 ∧
    (insertList (emptyTree 2) [5, 6]).2.leaves = [5, 6] :=
  ⟨c7_root_deterministic.1 2 [5, 6] (emptyTree 2) (emptyTree 2) rfl rfl,
   c7_root_deterministic.2 2 [5, 6] (by decide)⟩

/-- Claim C8, counterexample: with a dispatcher that always fails, 100 loop
iterations of `processMessageQueue` on a single queued message do not
terminate the loop — far beyond any bounded retry budget such as the
maxAttempts = 5 of the specification scenario; no terminal Failed state is
ever reached because none exists in the code. -/
theorem c8_counterexample :
    processMessageQueue (fun _ => false) 100
      [CrossChainMessage.mk 1 2 3 4 5 6 7 8 9] = none := by
  decide

/-- Claim C8, amended: dispatch retries are UNBOUNDED — a failed message is
pushed back onto the end of the queue and retried forever, so on a nonempty
queue whose dispatches all fail the queue-processing loop never terminates,
for every finite iteration budget. -/
theorem c8_retries_unbounded :
    ∀ (d : CrossChainMessage → Bool) (fuel : Nat) (q : List CrossChainMessage),
      q ≠ [] → (∀ m, d m = false) → processMessageQueue d fuel q = none := by
  intro d fuel
  induction fuel with
  | zero =>
    intro q hq _
    cases q with
    | nil => exact absurd rfl hq
    | cons m rest => simp [processMessageQueue]
  | succ n ih =>
    intro q hq hd
    cases q with
    | nil => exact absurd rfl hq
    | cons m rest =>
      simp only [processMessageQueue, hd m, Bool.false_eq_true, if_false]
      exact ih (rest ++ [m]) (by simp) hd

/-- Claim C8 witness: the amended theorem at an always-failing dispatcher,
iteration budget 5, and a singleton queue. -/
theorem c8_retries_unbounded_witness :
    processMessageQueue (fun _ => false) 5 [CrossChainMessage.mk 1 1 1 1 1 1 1 1 1] =
      none :=
  c8_retries_unbounded (fun _ => false) 5 [CrossChainMessage.mk 1 1 1 1 1 1 1 1 1]
    (by simp) (fun _ => rfl)

/-- Claim C9: `ShieldedPool.withdraw` never reads its proof argument — two
calls differing only in the proof return the same result and state, and a
withdrawal of an existing unspent note with a fresh nullifier succeeds for
every proof whatsoever. -/
theorem c9_withdraw_proof_independent :
    (∀ (p : ShieldedPool) (c : List Nat) (r : Nat) (proof1 proof2 : ZKProofOutput)
        (rel fee : Nat),
        p.withdraw c r proof1 rel fee = p.withdraw c r proof2 rel fee) ∧
    (∀ (p : ShieldedPool) (c : List Nat) (note : ShieldedNote) (r : Nat)
        (proof : ZKProofOutput) (rel fee : Nat),
        mapGet p.notes c = some note → note.spent = false →
        note.nullifier ∉ p.nullifierSet →
        (p.withdraw c r proof rel fee).1 = Except.ok (true, note.nullifier)) := by
  constructor
  · intro p c r proof1 proof2 rel fee
    rfl
  · intro p c note r proof rel fee hget hspent hmem
    exact (withdraw_success_spec r proof rel fee hget hspent hmem).1

/-- Claim C9 witness: a concrete pool where an empty proof and a nonempty
proof produce identical withdraw results, and the withdrawal succeeds with
the empty proof. -/
theorem c9_withdraw_proof_independent_witness :
    (ShieldedPool.mk [([9, 1, 2], ShieldedNote.mk [9, 1, 2] [1, 2] 9 2 0 false 0)]
        [] [[9, 1, 2]] 4).withdraw [9, 1, 2] 0 (ZKProofOutput.mk [] [] [] []) 0 0 =
      (ShieldedPool.mk [([9, 1, 2], ShieldedNote.mk [9, 1, 2] [1, 2] 9 2 0 false 0)]
        [] [[9, 1, 2]] 4).withdraw [9, 1, 2] 0
        (ZKProofOutput.mk [1] [[2]] [3] [4]) 0 0 ∧
    ((ShieldedPool.mk [([9, 1, 2], ShieldedNote.mk [9, 1, 2] [1, 2] 9 2 0 false 0)]
        [] [[9, 1, 2]] 4).withdraw [9, 1, 2] 0
        (ZKProofOutput.mk [] [] [] []) 0 0).1 = Except.ok (true, [1, 2]) := by
  refine ⟨?_, ?_⟩
  · exact c9_withdraw_proof_independent.1
      (ShieldedPool.mk [([9, 1, 2], ShieldedNote.mk [9, 1, 2] [1, 2] 9 2 0 false 0)]
        [] [[9, 1, 2]] 4) [9, 1, 2] 0
      (ZKProofOutput.mk [] [] [] []) (ZKProofOutput.mk [1] [[2]] [3] [4]) 0 0
  · exact c9_withdraw_proof_independent.2
      (ShieldedPool.mk [([9, 1, 2], ShieldedNote.mk [9, 1, 2] [1, 2] 9 2 0 false 0)]
        [] [[9, 1, 2]] 4) [9, 1, 2]
      (ShieldedNote.mk [9, 1, 2] [1, 2] 9 2 0 false 0) 0
      (ZKProofOutput.mk [] [] [] []) 0 0 rfl rfl (by decide)

/-- Claim C10: whenever `processConfirmedTransfer` runs (the confirmation
list is nonempty), the message it dispatches has sender, recipient and
token equal to the zero address, amount and nonce zero, and both chain ids
equal to the FIRST confirmation blockNumber — the originally submitted
message is not an input of the computation at all, so the dispatched
message is independent of it. -/
theorem c10_dispatched_message_zeroed :
    ∀ (tid : Nat) (confs : List RelayConfirmation) (c : RelayConfirmation),
      confs.head? = some c →
      processConfirmedTransfer tid confs = some
        { transferId := tid, sender := 0, recipient := 0, amount := 0,
          sourceChainId := c.blockNumber, destinationChainId := c.blockNumber,
          token := 0, timestamp := c.timestamp, nonce := 0 } := by
  intro tid confs c h
  unfold processConfirmedTransfer
  rw [h]
  rfl

/-- Claim C10 witness: one concrete confirmation with blockNumber 42 and
timestamp 99 yields the zeroed dispatched message with chain ids 42. -/
theorem c10_dispatched_message_zeroed_witness :
    processConfirmedTransfer 7 [RelayConfirmation.mk 7 100 42 99 [1] [1]] =
      some (CrossChainMessage.mk 7 0 0 0 42 42 0 99 0) :=
  c10_dispatched_message_zeroed 7 [RelayConfirmation.mk 7 100 42 99 [1] [1]]
    (RelayConfirmation.mk 7 100 42 99 [1] [1]) rfl

end RivicQ
